import Mathlib

/-!
Verification of the spectral-value layer of the `rayn` renderer
(`src/spectrum.rs`): the `IsSpectrum` contract and its `Rgb` implementation.

The source computes over IEEE-754 `f32`.  We embed `f32` as an exact-valued
model: a value is NaN, a signed infinity, or an exact finite rational (the
two IEEE zeroes are collapsed into the rational `0`, matching the behaviour
of `f32` equality, which treats `-0.0 == 0.0` as true).  Arithmetic on
finite values is exact; rounding is not modelled.  Every operation the
claims below exercise (addition of `0`, multiplication by `0` and `1`,
comparison, clamping, component maximum, division by zero) is exact in
IEEE-754, so on those operations the model agrees with `f32` up to the
collapsed zero sign.  The special-value cases (NaN propagation,
`Inf * 0 = NaN`, `x / 0 = Inf` for finite non-zero `x`, comparisons with
NaN being false) follow IEEE-754 semantics, which is what Rust `f32`
implements.

The numeric 3-component tuple `vek::vec::Rgb<f32>` is the external
numeric-primitive collaborator of the spec; its componentwise operations,
`Clamp::clamped01` and `reduce_partial_max` are embedded following vek's
combinators (`partial_max a b = if a >= b { a } else { b }`,
`partial_min a b = if a <= b { a } else { b }`, clamp = min of max, reduce
= left fold over the three components).
-/

namespace Rayn

/-- Model of Rust `f32`: NaN, signed infinities (`inf false` is `+∞`,
`inf true` is `-∞`), or an exact finite rational (signed zero collapsed). -/
inductive F32 where
  | nan : F32
  | inf : Bool → F32
  | fin : ℚ → F32
deriving DecidableEq, Repr

namespace F32

/-- IEEE-754 addition on the model (exact on finite values). -/
def addF : F32 → F32 → F32
  | nan, _ => nan
  | _, nan => nan
  | inf s, inf t => if s = t then inf s else nan
  | inf s, fin _ => inf s
  | fin _, inf t => inf t
  | fin a, fin b => fin (a + b)

/-- IEEE-754 subtraction on the model (exact on finite values). -/
def subF : F32 → F32 → F32
  | nan, _ => nan
  | _, nan => nan
  | inf s, inf t => if s = t then nan else inf s
  | inf s, fin _ => inf s
  | fin _, inf t => inf (!t)
  | fin a, fin b => fin (a - b)

/-- IEEE-754 multiplication on the model (exact on finite values).
`∞ * 0 = NaN`; otherwise signs combine by exclusive or. -/
def mulF : F32 → F32 → F32
  | nan, _ => nan
  | _, nan => nan
  | inf s, inf t => inf (xor s t)
  | inf s, fin q => if q = 0 then nan else inf (xor s (decide (q < 0)))
  | fin q, inf t => if q = 0 then nan else inf (xor t (decide (q < 0)))
  | fin a, fin b => fin (a * b)

/-- IEEE-754 division on the model (exact on finite values).  A finite
non-zero value divided by zero is a signed infinity; `0 / 0` and `∞ / ∞`
are NaN.  Division is a total function: no error is ever raised. -/
def divF : F32 → F32 → F32
  | nan, _ => nan
  | _, nan => nan
  | inf _, inf _ => nan
  | inf s, fin q => inf (xor s (decide (q < 0)))
  | fin _, inf _ => fin 0
  | fin a, fin b =>
      if b = 0 then (if a = 0 then nan else inf (decide (a < 0)))
      else fin (a / b)

/-- Rust `f32::is_nan`. -/
def isNanF : F32 → Bool
  | nan => true
  | _ => false

/-- Rust `f32::is_infinite`. -/
def isInfF : F32 → Bool
  | inf _ => true
  | _ => false

/-- The value is finite: neither NaN nor an infinity. -/
def isFiniteF : F32 → Bool
  | fin _ => true
  | _ => false

/-- IEEE-754 `<` (any comparison with NaN is false). -/
def ltF : F32 → F32 → Bool
  | nan, _ => false
  | _, nan => false
  | inf s, inf t => s && !t
  | inf s, fin _ => s
  | fin _, inf t => !t
  | fin a, fin b => decide (a < b)

/-- IEEE-754 `≤` (any comparison with NaN is false). -/
def leF : F32 → F32 → Bool
  | nan, _ => false
  | _, nan => false
  | inf s, inf t => s || !t
  | inf s, fin _ => s
  | fin _, inf t => !t
  | fin a, fin b => decide (a ≤ b)

/-- IEEE-754 `≥` (any comparison with NaN is false). -/
def geF : F32 → F32 → Bool
  | nan, _ => false
  | _, nan => false
  | inf s, inf t => !s || t
  | inf s, fin _ => !s
  | fin _, inf t => t
  | fin a, fin b => decide (b ≤ a)

/-- IEEE-754 equality, as implemented by Rust `==` on `f32`:
false whenever either side is NaN. -/
def beqF : F32 → F32 → Bool
  | nan, _ => false
  | _, nan => false
  | inf s, inf t => s = t
  | fin a, fin b => decide (a = b)
  | _, _ => false

/-- vek `partial_max` over `PartialOrd`: the first argument when it
compares greater-or-equal, the second otherwise. -/
def pmaxF (a b : F32) : F32 := if geF a b then a else b

/-- vek `partial_min` over `PartialOrd`: the first argument when it
compares less-or-equal, the second otherwise. -/
def pminF (a b : F32) : F32 := if leF a b then a else b

/-- vek `Clamp::clamped01` on `f32`: clamp into `[0, 1]` via the partial
min/max combinators. -/
def clamped01 (x : F32) : F32 := pminF (pmaxF x (fin 0)) (fin 1)

/-- Specification-side independent per-channel clamp to `[0, 1]`, written
from the spec's words (below 0 becomes 0, above 1 becomes 1, values inside
the interval are unchanged); compared against `clamped01` in C8. -/
def clampUnitSpec (x : F32) : F32 :=
  if ltF x (fin 0) then fin 0 else if ltF (fin 1) x then fin 1 else x

end F32

open F32

/-- `Rgb` from `src/spectrum.rs`: a wrapper around `vek::vec::Rgb<f32>`,
three `f32` channels `r`, `g`, `b` (the newtype layer is flattened into a
three-field structure; the source's `Deref` exposes exactly these
fields). -/
structure Rgb where
  r : F32
  g : F32
  b : F32
deriving DecidableEq, Repr

namespace Rgb

/-- `Rgb::new(r, g, b)`. -/
def new (r g b : F32) : Rgb := ⟨r, g, b⟩

/-- `IsSpectrum::zero` for `Rgb`: all channels `0.0` (vek `Rgb::zero`). -/
def zero : Rgb := ⟨fin 0, fin 0, fin 0⟩

/-- `IsSpectrum::one` for `Rgb`: all channels `1.0` (vek `Rgb::one`). -/
def one : Rgb := ⟨fin 1, fin 1, fin 1⟩

/-- `Add for Rgb` (from `impl_wrapper_ops!`): componentwise addition of the
underlying vek vectors. -/
def add (x y : Rgb) : Rgb := ⟨addF x.r y.r, addF x.g y.g, addF x.b y.b⟩

/-- `Sub for Rgb` (from `impl_wrapper_ops!`): componentwise subtraction. -/
def sub (x y : Rgb) : Rgb := ⟨subF x.r y.r, subF x.g y.g, subF x.b y.b⟩

/-- `Mul<Rgb> for Rgb` (from `impl_wrapper_ops!`): componentwise
(elementwise) multiplication. -/
def mul (x y : Rgb) : Rgb := ⟨mulF x.r y.r, mulF x.g y.g, mulF x.b y.b⟩

/-- `Mul<f32> for Rgb` (from `impl_wrapper_ops!`): scale every channel by
the scalar. -/
def smul (x : Rgb) (k : F32) : Rgb := ⟨mulF x.r k, mulF x.g k, mulF x.b k⟩

/-- `Div<f32> for Rgb` (from `impl_wrapper_ops!`): divide every channel by
the scalar. -/
def sdiv (x : Rgb) (k : F32) : Rgb := ⟨divF x.r k, divF x.g k, divF x.b k⟩

/-- Derived `PartialEq` for `Rgb`, delegating to vek's componentwise `f32`
equality: Rust `x == y`. -/
def beq (x y : Rgb) : Bool := beqF x.r y.r && beqF x.g y.g && beqF x.b y.b

/-- `Rgb::max_channel`: vek `reduce_partial_max`, the fold of
`partial_max` over the three channels. -/
def maxChannel (x : Rgb) : F32 := pmaxF (pmaxF x.r x.g) x.b

/-- `Rgb::is_black`: `self.max_channel() < 0.0001`. -/
def isBlack (x : Rgb) : Bool := ltF (maxChannel x) (fin (1 / 10000))

/-- `Rgb::is_nan`: `self.r.is_nan() || self.g.is_nan() || self.b.is_nan()`. -/
def isNan (x : Rgb) : Bool := isNanF x.r || isNanF x.g || isNanF x.b

/-- `Rgb::saturated`: `Rgb(self.0.map(|x| Clamp::clamped01(x)))`.  Pure:
it builds a new value and leaves its receiver untouched (mutation is not
representable in this embedding; all operations are functions). -/
def saturated (x : Rgb) : Rgb :=
  ⟨clamped01 x.r, clamped01 x.g, clamped01 x.b⟩

/-- `Sum for Rgb`: `iter.fold(Rgb::zero(), |a, b| a + b)`. -/
def sum (l : List Rgb) : Rgb := l.foldl add zero

/-- Rust's blanket `impl<T> From<T> for T`, which is what the contract's
`Into<Rgb>` bound resolves to when the spectral type is `Rgb` itself: the
identity. -/
def intoRgb (x : Rgb) : Rgb := x

/-- Rust's blanket `impl<T> From<T> for T`, giving the contract's
`From<Rgb>` conversion at `Rgb` itself: the identity. -/
def fromRgb (x : Rgb) : Rgb := x

/-- All three channels are finite (no NaN, no infinity). -/
def allFinite (x : Rgb) : Bool :=
  isFiniteF x.r && isFiniteF x.g && isFiniteF x.b

end Rgb

/-! ## Helper lemmas about the `f32` model -/

theorem addF_zero_right (a : F32) : addF a (fin 0) = a := by
  cases a <;> simp [addF]

theorem addF_zero_left (a : F32) : addF (fin 0) a = a := by
  cases a <;> simp [addF]

theorem mulF_one_right (a : F32) : mulF a (fin 1) = a := by
  cases a <;> simp [mulF]
  norm_num

theorem mulF_zero_right (a : F32) (h : isFiniteF a = true) :
    mulF a (fin 0) = fin 0 := by
  cases a <;> simp_all [mulF, isFiniteF]

theorem isNanF_false_iff (x : F32) : isNanF x = false ↔ x ≠ nan := by
  cases x <;> simp [isNanF]

theorem isFiniteF_not_nan (x : F32) (h : isFiniteF x = true) : x ≠ nan := by
  cases x <;> simp_all [isFiniteF]

theorem geF_refl (a : F32) (h : a ≠ nan) : geF a a = true := by
  cases a
  all_goals simp_all [geF]

theorem geF_total (a b : F32) (ha : a ≠ nan) (hb : b ≠ nan)
    (h : geF a b = false) : geF b a = true := by
  cases a <;> cases b <;> simp_all [geF]
  linarith

theorem geF_trans (a b c : F32) (ha : a ≠ nan) (hb : b ≠ nan) (hc : c ≠ nan)
    (h1 : geF a b = true) (h2 : geF b c = true) : geF a c = true := by
  cases a <;> cases b <;> cases c <;> simp_all [geF] <;>
    first
    | linarith
    | (rcases h1 with h1 | h1 <;> rcases h2 with h2 | h2 <;> simp_all)

theorem pmaxF_cases (a b : F32) : pmaxF a b = a ∨ pmaxF a b = b := by
  unfold pmaxF; split <;> simp

theorem pmaxF_ge (a b : F32) (ha : a ≠ nan) (hb : b ≠ nan) :
    geF (pmaxF a b) a = true ∧ geF (pmaxF a b) b = true := by
  by_cases h : geF a b = true
  · rw [pmaxF, if_pos h]
    exact ⟨geF_refl a ha, h⟩
  · have h' : geF a b = false := by simpa using h
    rw [pmaxF, if_neg h]
    exact ⟨geF_total a b ha hb h', geF_refl b hb⟩

theorem pmaxF_ne_nan (a b : F32) (ha : a ≠ nan) (hb : b ≠ nan) :
    pmaxF a b ≠ nan := by
  rcases pmaxF_cases a b with h | h <;> rw [h] <;> assumption

theorem pmaxF_fin (a b : ℚ) : pmaxF (fin a) (fin b) = fin (max a b) := by
  simp only [pmaxF, geF, decide_eq_true_eq]
  split_ifs with h
  · rw [max_eq_left h]
  · rw [max_eq_right (le_of_not_le h)]

theorem pminF_fin (a b : ℚ) : pminF (fin a) (fin b) = fin (min a b) := by
  simp only [pminF, leF, decide_eq_true_eq]
  split_ifs with h
  · rw [min_eq_left h]
  · rw [min_eq_right (le_of_not_le h)]

theorem clamped01_eq_spec (x : F32) (hx : x ≠ nan) :
    clamped01 x = clampUnitSpec x := by
  cases x with
  | nan => simp at hx
  | inf s =>
      cases s <;> simp [clamped01, pmaxF, pminF, geF, leF, clampUnitSpec, ltF]
  | fin q =>
      rw [clamped01, pmaxF_fin, pminF_fin, clampUnitSpec]
      simp only [ltF, decide_eq_true_eq]
      split_ifs with h1 h2
      · rw [max_eq_right h1.le, min_eq_left (by norm_num : (0 : ℚ) ≤ 1)]
      · rw [max_eq_left (le_of_not_lt h1), min_eq_right h2.le]
      · rw [max_eq_left (le_of_not_lt h1), min_eq_left (le_of_not_lt h2)]

/-! ## Helper lemmas about `Rgb` -/

theorem add_zero_right (a : Rgb) : Rgb.add a Rgb.zero = a := by
  cases a; simp [Rgb.add, Rgb.zero, addF_zero_right]

theorem add_zero_left (a : Rgb) : Rgb.add Rgb.zero a = a := by
  cases a; simp [Rgb.add, Rgb.zero, addF_zero_left]

theorem maxChannel_mem (v : Rgb) :
    Rgb.maxChannel v = v.r ∨ Rgb.maxChannel v = v.g ∨ Rgb.maxChannel v = v.b := by
  obtain ⟨r, g, b⟩ := v
  have e : Rgb.maxChannel ⟨r, g, b⟩ = pmaxF (pmaxF r g) b := rfl
  rcases pmaxF_cases (pmaxF r g) b with h | h
  · rcases pmaxF_cases r g with h2 | h2 <;> rw [e, h, h2] <;> tauto
  · rw [e, h]; tauto

/-! ## The claims -/

/-- C1: `Sum for Rgb` reduces a sequence by repeated addition seeded at
`zero()`: the empty sequence sums to `zero()`, and for all values `a`,
`b`, `c` the sum of `[a, b, c]` is exactly the value `a + b + c` (the left
fold of `+` starting from `zero()`). -/
theorem sum_eq_foldl_add :
    Rgb.sum [] = Rgb.zero ∧
    ∀ a b c : Rgb, Rgb.sum [a, b, c] = Rgb.add (Rgb.add a b) c := by
  refine ⟨rfl, fun a b c => ?_⟩
  show Rgb.add (Rgb.add (Rgb.add Rgb.zero a) b) c = _
  rw [add_zero_left]

/-- C2 (amended): for every `Rgb` value `a`, `a + zero()` and `a * one()`
compute exactly the value `a`; and `a * zero() == zero()` holds whenever
all channels of `a` are finite.  The unrestricted claim is false: with a
NaN or infinite channel, `a * zero()` has a NaN channel
(`∞ * 0 = NaN` in IEEE-754) and is not `zero()`. -/
theorem add_zero_mul_one_mul_zero (a : Rgb) :
    Rgb.add a Rgb.zero = a ∧ Rgb.mul a Rgb.one = a ∧
    (Rgb.allFinite a = true → Rgb.mul a Rgb.zero = Rgb.zero) := by
  obtain ⟨r, g, b⟩ := a
  refine ⟨add_zero_right _, ?_, fun hfin => ?_⟩
  · simp [Rgb.mul, Rgb.one, mulF_one_right]
  · simp [Rgb.allFinite] at hfin
    obtain ⟨⟨h1, h2⟩, h3⟩ := hfin
    simp [Rgb.mul, Rgb.zero, mulF_zero_right, h1, h2, h3]

/-- C2 counterexample: at `a = Rgb(+∞, 0, 0)` the product `a * zero()` is
`Rgb(NaN, 0, 0)`: it is not the value `zero()` and Rust `==` against
`zero()` is false, so `a * zero() == zero()` fails for this `a`. -/
theorem mul_zero_not_zero_at_inf :
    Rgb.beq (Rgb.mul (Rgb.new (inf false) (fin 0) (fin 0)) Rgb.zero)
      Rgb.zero = false ∧
    (Rgb.mul (Rgb.new (inf false) (fin 0) (fin 0)) Rgb.zero = Rgb.zero) =
      False := by
  constructor
  · simp [Rgb.beq, Rgb.mul, Rgb.new, Rgb.zero, mulF, beqF]
  · simp [Rgb.mul, Rgb.new, Rgb.zero, mulF]

/-- C2 witness: at the concrete finite value `Rgb(2, 3, -1)` the amended
claim's hypothesis holds and `a * zero()` is `zero()`. -/
theorem add_zero_mul_one_mul_zero_witness :
    Rgb.allFinite (Rgb.new (fin 2) (fin 3) (fin (-1))) = true ∧
    Rgb.mul (Rgb.new (fin 2) (fin 3) (fin (-1))) Rgb.zero = Rgb.zero :=
  ⟨by simp [Rgb.allFinite, Rgb.new, isFiniteF],
   (add_zero_mul_one_mul_zero (Rgb.new (fin 2) (fin 3) (fin (-1)))).2.2
     (by simp [Rgb.allFinite, Rgb.new, isFiniteF])⟩

/-- C3: for every `Rgb` value, `is_black()` is true exactly when
`max_channel()` compares strictly below the fixed epsilon `0.0001`; in
particular `is_black(zero())` is true and `is_black(one())` is false. -/
theorem is_black_iff_below_eps :
    (∀ v : Rgb, Rgb.isBlack v = ltF (Rgb.maxChannel v) (fin (1 / 10000))) ∧
    Rgb.isBlack Rgb.zero = true ∧ Rgb.isBlack Rgb.one = false := by
  refine ⟨fun v => rfl, ?_, ?_⟩
  · norm_num [Rgb.isBlack, Rgb.maxChannel, pmaxF, geF, ltF, Rgb.zero]
  · norm_num [Rgb.isBlack, Rgb.maxChannel, pmaxF, geF, ltF, Rgb.one]

/-- C4: for every `Rgb` value, `is_nan()` returns true if and only if at
least one of the three channels is NaN; `Rgb(NaN, 0, 0).is_nan()` is true
and `Rgb(0, 0, 0).is_nan()` is false. -/
theorem is_nan_iff_any_channel_nan :
    (∀ v : Rgb, Rgb.isNan v = true ↔ (v.r = nan ∨ v.g = nan ∨ v.b = nan)) ∧
    Rgb.isNan (Rgb.new nan (fin 0) (fin 0)) = true ∧
    Rgb.isNan (Rgb.new (fin 0) (fin 0) (fin 0)) = false := by
  refine ⟨fun v => ?_, by simp [Rgb.isNan, Rgb.new, isNanF],
    by simp [Rgb.isNan, Rgb.new, isNanF]⟩
  obtain ⟨r, g, b⟩ := v
  cases r <;> cases g <;> cases b <;> simp [Rgb.isNan, isNanF]

/-- C5: for every `Rgb` value with no NaN channel, `max_channel()` returns
the maximum of the three channel values: it is one of `r`, `g`, `b` and
compares greater-or-equal to each of them.  (The example
`max_channel(Rgb(0.2, 0.9, 0.1)) = 0.9` is the witness.) -/
theorem max_channel_is_max (v : Rgb) (h : Rgb.isNan v = false) :
    (Rgb.maxChannel v = v.r ∨ Rgb.maxChannel v = v.g ∨
      Rgb.maxChannel v = v.b) ∧
    geF (Rgb.maxChannel v) v.r = true ∧ geF (Rgb.maxChannel v) v.g = true ∧
    geF (Rgb.maxChannel v) v.b = true := by
  obtain ⟨r, g, b⟩ := v
  simp only [Rgb.isNan, Bool.or_eq_false_iff] at h
  obtain ⟨⟨hr, hg⟩, hb⟩ := h
  rw [isNanF_false_iff] at hr hg hb
  have h1 := pmaxF_ge r g hr hg
  have hn1 : pmaxF r g ≠ nan := pmaxF_ne_nan r g hr hg
  have h2 := pmaxF_ge (pmaxF r g) b hn1 hb
  have hn2 : pmaxF (pmaxF r g) b ≠ nan := pmaxF_ne_nan _ b hn1 hb
  refine ⟨maxChannel_mem _, ?_, ?_, h2.2⟩
  · exact geF_trans _ _ _ hn2 hn1 hr h2.1 h1.1
  · exact geF_trans _ _ _ hn2 hn1 hg h2.1 h1.2

/-- C5 witness: at `Rgb(0.2, 0.9, 0.1)` the hypothesis holds, the theorem
applies, and the computed maximum channel is `0.9`. -/
theorem max_channel_is_max_witness :
    Rgb.isNan (Rgb.new (fin (1/5)) (fin (9/10)) (fin (1/10))) = false ∧
    ((Rgb.maxChannel (Rgb.new (fin (1/5)) (fin (9/10)) (fin (1/10))) =
        (Rgb.new (fin (1/5)) (fin (9/10)) (fin (1/10))).r ∨
      Rgb.maxChannel (Rgb.new (fin (1/5)) (fin (9/10)) (fin (1/10))) =
        (Rgb.new (fin (1/5)) (fin (9/10)) (fin (1/10))).g ∨
      Rgb.maxChannel (Rgb.new (fin (1/5)) (fin (9/10)) (fin (1/10))) =
        (Rgb.new (fin (1/5)) (fin (9/10)) (fin (1/10))).b) ∧
     geF (Rgb.maxChannel (Rgb.new (fin (1/5)) (fin (9/10)) (fin (1/10))))
        (Rgb.new (fin (1/5)) (fin (9/10)) (fin (1/10))).r = true ∧
     geF (Rgb.maxChannel (Rgb.new (fin (1/5)) (fin (9/10)) (fin (1/10))))
        (Rgb.new (fin (1/5)) (fin (9/10)) (fin (1/10))).g = true ∧
     geF (Rgb.maxChannel (Rgb.new (fin (1/5)) (fin (9/10)) (fin (1/10))))
        (Rgb.new (fin (1/5)) (fin (9/10)) (fin (1/10))).b = true) ∧
    Rgb.maxChannel (Rgb.new (fin (1/5)) (fin (9/10)) (fin (1/10))) =
      fin (9/10) :=
  ⟨by simp [Rgb.isNan, Rgb.new, isNanF],
   max_channel_is_max _ (by simp [Rgb.isNan, Rgb.new, isNanF]),
   by norm_num [Rgb.maxChannel, Rgb.new, pmaxF, geF]⟩

/-- C6: for every `Rgb` value with finite, non-zero channels, scalar
division by `0.0` produces a value whose three channels are all infinite,
and `is_nan()` on that result is false (Inf is not NaN).  Division is a
total function in the embedding, mirroring that the Rust code raises no
error. -/
theorem div_zero_infinite_not_nan (v : Rgb) (hfin : Rgb.allFinite v = true)
    (hr : v.r ≠ fin 0) (hg : v.g ≠ fin 0) (hb : v.b ≠ fin 0) :
    isInfF (Rgb.sdiv v (fin 0)).r = true ∧
    isInfF (Rgb.sdiv v (fin 0)).g = true ∧
    isInfF (Rgb.sdiv v (fin 0)).b = true ∧
    Rgb.isNan (Rgb.sdiv v (fin 0)) = false := by
  obtain ⟨r, g, b⟩ := v
  simp only [Rgb.allFinite, Bool.and_eq_true] at hfin
  obtain ⟨⟨h1, h2⟩, h3⟩ := hfin
  simp only at hr hg hb
  cases r <;> simp_all [isFiniteF]
  cases g <;> simp_all [isFiniteF]
  cases b <;> simp_all [isFiniteF]
  simp_all [Rgb.sdiv, divF, Rgb.isNan, isNanF, isInfF]

/-- C6 witness: dividing the concrete value `Rgb(1, 2, 3)` by the scalar
`0.0` yields infinite channels and a non-NaN result. -/
theorem div_zero_infinite_not_nan_witness :
    Rgb.allFinite (Rgb.new (fin 1) (fin 2) (fin 3)) = true ∧
    (isInfF (Rgb.sdiv (Rgb.new (fin 1) (fin 2) (fin 3)) (fin 0)).r = true ∧
     isInfF (Rgb.sdiv (Rgb.new (fin 1) (fin 2) (fin 3)) (fin 0)).g = true ∧
     isInfF (Rgb.sdiv (Rgb.new (fin 1) (fin 2) (fin 3)) (fin 0)).b = true ∧
     Rgb.isNan (Rgb.sdiv (Rgb.new (fin 1) (fin 2) (fin 3)) (fin 0)) = false) :=
  ⟨by simp [Rgb.allFinite, Rgb.new, isFiniteF],
   div_zero_infinite_not_nan _ (by simp [Rgb.allFinite, Rgb.new, isFiniteF])
     (by simp [Rgb.new]) (by simp [Rgb.new]) (by simp [Rgb.new])⟩

/-- C7: converting an `Rgb` value into the spectral-value contract type
instantiated at `Rgb` itself (Rust's blanket identity `From`/`Into`) and
back is an exact identity. -/
theorem rgb_roundtrip_identity :
    ∀ v : Rgb, Rgb.fromRgb (Rgb.intoRgb v) = v ∧ Rgb.intoRgb v = v :=
  fun _ => ⟨rfl, rfl⟩

/-- C8: on every value with no NaN channel, `saturated()` clamps each
channel independently to `[0, 1]` (below 0 becomes 0, above 1 becomes 1,
in-range channels are unchanged), returning a new value; the receiver is
untouched (all embedded operations are pure functions).  The spec example
`Rgb(1.5, -0.2, 0.5).saturated() = Rgb(1.0, 0.0, 0.5)` is the witness. -/
theorem saturated_clamps (v : Rgb) (h : Rgb.isNan v = false) :
    Rgb.saturated v =
      Rgb.new (clampUnitSpec v.r) (clampUnitSpec v.g) (clampUnitSpec v.b) := by
  obtain ⟨r, g, b⟩ := v
  simp only [Rgb.isNan, Bool.or_eq_false_iff] at h
  obtain ⟨⟨hr, hg⟩, hb⟩ := h
  rw [isNanF_false_iff] at hr hg hb
  simp [Rgb.saturated, Rgb.new, clamped01_eq_spec _ hr, clamped01_eq_spec _ hg,
    clamped01_eq_spec _ hb]

/-- C8 witness: `Rgb(1.5, -0.2, 0.5).saturated()` is `Rgb(1.0, 0.0, 0.5)`. -/
theorem saturated_clamps_witness :
    Rgb.isNan (Rgb.new (fin (3/2)) (fin (-1/5)) (fin (1/2))) = false ∧
    Rgb.saturated (Rgb.new (fin (3/2)) (fin (-1/5)) (fin (1/2))) =
      Rgb.new (fin 1) (fin 0) (fin (1/2)) := by
  refine ⟨by simp [Rgb.isNan, Rgb.new, isNanF], ?_⟩
  rw [saturated_clamps _ (by simp [Rgb.isNan, Rgb.new, isNanF])]
  norm_num [clampUnitSpec, Rgb.new, ltF]

/-- C9: equality on `Rgb` is not reflexive over all values: for every
value with at least one NaN channel, Rust `v == v` (the derived
`PartialEq`, componentwise `f32` equality) is false, since `NaN != NaN`. -/
theorem beq_self_false_of_nan (v : Rgb) (h : Rgb.isNan v = true) :
    Rgb.beq v v = false := by
  obtain ⟨r, g, b⟩ := v
  cases r <;> cases g <;> cases b <;> simp_all [Rgb.isNan, isNanF, Rgb.beq, beqF]

/-- C9 witness: `Rgb(NaN, 0, 0)` has a NaN channel and compares unequal to
itself. -/
theorem beq_self_false_of_nan_witness :
    Rgb.isNan (Rgb.new nan (fin 0) (fin 0)) = true ∧
    Rgb.beq (Rgb.new nan (fin 0) (fin 0)) (Rgb.new nan (fin 0) (fin 0)) =
      false :=
  ⟨by simp [Rgb.isNan, Rgb.new, isNanF],
   beq_self_false_of_nan _ (by simp [Rgb.isNan, Rgb.new, isNanF])⟩

/-- C10: `is_black()` compares the signed maximum channel, not an absolute
magnitude: every `Rgb` value all of whose channels compare strictly below
zero is reported black, however large the channels are in absolute value. -/
theorem is_black_of_negative_channels (v : Rgb)
    (hr : ltF v.r (fin 0) = true) (hg : ltF v.g (fin 0) = true)
    (hb : ltF v.b (fin 0) = true) : Rgb.isBlack v = true := by
  have key : ∀ m : F32, ltF m (fin 0) = true → ltF m (fin (1 / 10000)) = true := by
    intro m hm
    cases m <;> simp_all [ltF]
    linarith
  rcases maxChannel_mem v with h | h | h <;> rw [Rgb.isBlack, h]
  · exact key _ hr
  · exact key _ hg
  · exact key _ hb

/-- C10 witness: `Rgb(-1, -1, -1)` has strictly negative channels and
`is_black()` reports it black. -/
theorem is_black_of_negative_channels_witness :
    ltF (Rgb.new (fin (-1)) (fin (-1)) (fin (-1))).r (fin 0) = true ∧
    Rgb.isBlack (Rgb.new (fin (-1)) (fin (-1)) (fin (-1))) = true :=
  ⟨by norm_num [Rgb.new, ltF],
   is_black_of_negative_channels _ (by norm_num [Rgb.new, ltF])
     (by norm_num [Rgb.new, ltF]) (by norm_num [Rgb.new, ltF])⟩

end Rayn
